import Mathlib

/- Verification of the NanoEncoder file-lifecycle engine.

   A directory snapshot is modelled as the list of file names in the
   tree; classification, pairing, eligibility and the destructive
   operations of the source are embedded as pure functions of such a
   snapshot.  External adapters (ffmpeg / ffprobe) are modelled as
   oracles: the probed codec is a function argument, a per-file encode
   outcome is a value of an outcome type, and the random sampler's
   draws are supplied by an index oracle. -/

namespace NanoEncoder

/-- A directory snapshot: the names of the files in the tree. -/
abbrev FileSystem := List String

/-- Python `needle in hay` on strings: contiguous substring containment. -/
def strContains (hay needle : String) : Bool :=
  decide (needle.data <:+: hay.data)

/-- Python `hay.endswith(needle)`. -/
def strEndsWith (hay needle : String) : Bool :=
  decide (needle.data <:+ hay.data)

/-- Python `str.lower`, per character. -/
def strToLower (s : String) : String :=
  ⟨s.data.map Char.toLower⟩

/-- Fuel-driven core of Python `str.replace`: replace every
    non-overlapping occurrence of `pat`, scanning left to right.
    The fuel starts at the length of the string, which bounds the
    number of steps. -/
def replaceAux : Nat → List Char → List Char → List Char → List Char
  | 0, cs, _, _ => cs
  | _ + 1, [], _, _ => []
  | fuel + 1, c :: rest, pat, repl =>
    if pat ≠ [] ∧ pat <+: (c :: rest) then
      repl ++ replaceAux fuel ((c :: rest).drop pat.length) pat repl
    else
      c :: replaceAux fuel rest pat repl

/-- Python `s.replace(pat, repl)` (all occurrences). -/
def strReplace (s pat repl : String) : String :=
  ⟨replaceAux s.data.length s.data pat.data repl.data⟩

/-- Python `name.rfind(ch)`: the greatest index holding `ch`, if any. -/
def rfindChar (cs : List Char) (ch : Char) : Option Nat :=
  match cs.reverse.findIdx? (fun c => c == ch) with
  | none => none
  | some j => some (cs.length - 1 - j)

/-- `pathlib.PurePath.suffix`: the final extension, leading dot
    included; empty when the last dot is leading, trailing or absent. -/
def pySuffix (name : String) : String :=
  match rfindChar name.data '.' with
  | none => ""
  | some i => if 0 < i ∧ i < name.data.length - 1 then ⟨name.data.drop i⟩ else ""

/-- `pathlib.PurePath.stem`: the name with `pySuffix` removed. -/
def pyStem (name : String) : String :=
  match rfindChar name.data '.' with
  | none => name
  | some i => if 0 < i ∧ i < name.data.length - 1 then ⟨name.data.take i⟩ else name

/-- `Path.with_stem(st)`: replace the stem, keeping `pySuffix`. -/
def withStem (name st : String) : String :=
  st ++ pySuffix name

/-- Code-point lexicographic order on names, as `sorted()` compares the
    path strings. -/
def nameLeB : List Char → List Char → Bool
  | [], _ => true
  | _ :: _, [] => false
  | a :: as, b :: bs =>
    if a.val < b.val then true
    else if b.val < a.val then false
    else nameLeB as bs

def nameLe (a b : String) : Prop :=
  nameLeB a.data b.data = true

instance : DecidableRel nameLe :=
  fun _ _ => inferInstanceAs (Decidable (_ = true))

instance {ε α : Type} [DecidableEq ε] [DecidableEq α] : DecidableEq (Except ε α) :=
  fun a b =>
    match a, b with
    | .ok x, .ok y =>
      if h : x = y then .isTrue (by rw [h]) else .isFalse (by simp [h])
    | .error x, .error y =>
      if h : x = y then .isTrue (by rw [h]) else .isFalse (by simp [h])
    | .ok _, .error _ => .isFalse (by simp)
    | .error _, .ok _ => .isFalse (by simp)

/-- Python `sorted` on file names. -/
def sortNames (l : List String) : List String :=
  List.insertionSort nameLe l

/- ------------------------------------------------------------------ -/
/- utils.py                                                           -/
/- ------------------------------------------------------------------ -/

def VIDEO_FILE_EXTENSIONS : List String := ["mov", "mkv", "mp4"]

/-- A name matched by the directory walk `rglob("*.<ext>")` for one of
    the recognized container extensions (case-sensitive). -/
def isVideoFile (name : String) : Bool :=
  VIDEO_FILE_EXTENSIONS.any (fun ext => strEndsWith name ("." ++ ext))

/-- `utils.find_all_video_files`: all video files of the tree, sorted,
    optionally keeping only originals (no dotted `".optimized"` in the
    name) or only Done files.  The source raises `ValueError` when both
    flags are set; no caller does, so that branch is not modelled. -/
def find_all_video_files (fs : FileSystem) (originals_only optimized_only : Bool) :
    List String :=
  let video_files := sortNames (fs.filter isVideoFile)
  let video_files :=
    if originals_only then
      video_files.filter (fun v => !(strContains v ".optimized"))
    else video_files
  if optimized_only then
    video_files.filter (fun v => strContains v ".optimized")
  else video_files

/-- `utils.has_optimized_version`: derive `stem + ".optimized" + suffix`
    and return that path iff it exists in the snapshot.  Purely
    name-based: no content or hash verification. -/
def has_optimized_version (fs : FileSystem) (file_path : String) : Option String :=
  let optimized_path := withStem file_path (pyStem file_path ++ ".optimized")
  if optimized_path ∈ fs then some optimized_path else none

/- ------------------------------------------------------------------ -/
/- commands/optimize.py                                               -/
/- ------------------------------------------------------------------ -/

def EXCLUDED_FILENAME_PARTS : List String := ["optimized", "optimizing"]

def HEVC_CODEC_IDENTIFIERS : List String := ["hevc", "h265", "h.265"]

/-- `OptimizeDirectory._is_hevc_video`.  The probed codec string of the
    external `ffprobe` call is the oracle `codecOf`.  With `--force`
    every video is treated as non-HEVC. -/
def is_hevc_video (force_encode : Bool) (codecOf : String → String) (video : String) :
    Bool :=
  if force_encode then false
  else HEVC_CODEC_IDENTIFIERS.any (fun c => strContains (strToLower (codecOf video)) c)

/-- `OptimizeDirectory._should_exclude_video`: excluded filename parts
    (plain substrings), then existing Done pair, then codec probe. -/
def should_exclude_video (force_encode : Bool) (codecOf : String → String)
    (fs : FileSystem) (video : String) : Bool :=
  if EXCLUDED_FILENAME_PARTS.any (fun ex => strContains video ex) then true
  else if (has_optimized_version fs video).isSome then true
  else is_hevc_video force_encode codecOf video

/-- `OptimizeDirectory._find_video_files`: the eligible list, sorted. -/
def find_video_files (force_encode : Bool) (codecOf : String → String)
    (fs : FileSystem) : List String :=
  sortNames ((fs.filter isVideoFile).filter
    (fun v => !(should_exclude_video force_encode codecOf fs v)))

/-- One file's encode outcome as the batch loop observes it: ffmpeg
    succeeded and the two sizes were measured, or `optimize()` raised a
    per-file error that the loop catches and skips. -/
inductive FileOutcome where
  | success (originalSize optimizedSize : Nat)
  | failure
deriving DecidableEq

/-- `VideoOptimizer.disk_space_change = original_size -
    post_optimization_size`; a failed file never reaches
    `_validate_output`, so it contributes nothing. -/
def file_disk_space_change : FileOutcome → Int
  | .success o p => (o : Int) - (p : Int)
  | .failure => 0

structure BatchRun where
  total : Int
  processed : List FileOutcome
  halted : Bool
deriving DecidableEq

/-- The loop of `_process_videos_with_progress` with the body of
    `_process_single_video`: on success `_should_halt_on_size_increase`
    is consulted BEFORE the file's change is accumulated into
    `total_disk_space_change` (an early `return False` skips the
    accumulation); a failure is logged and skipped; `halted` records
    the `break`. -/
def process_videos (halt_on_increase : Bool) (total : Int) :
    List FileOutcome → BatchRun
  | [] => ⟨total, [], false⟩
  | o :: rest =>
    match o with
    | .failure =>
      let r := process_videos halt_on_increase total rest
      ⟨r.total, o :: r.processed, r.halted⟩
    | .success orig post =>
      if halt_on_increase = true ∧ (orig : Int) - (post : Int) < 0 then
        ⟨total, [o], true⟩
      else
        let r := process_videos halt_on_increase (total + ((orig : Int) - (post : Int))) rest
        ⟨r.total, o :: r.processed, r.halted⟩

/-- Sum of `(original_size - optimized_size)` over a list of outcomes. -/
def sum_disk_space_changes : List FileOutcome → Int
  | [] => 0
  | o :: rest => file_disk_space_change o + sum_disk_space_changes rest

/-- The files whose `disk_space_change` the loop accumulates: every
    processed file, except that a final halt-triggering file is left
    out by the early return. -/
def accumulated_files (r : BatchRun) : List FileOutcome :=
  match r.halted with
  | true => r.processed.dropLast
  | false => r.processed

/-- `VideoOptimizer._create_optimizing_output_path`. -/
def create_optimizing_output_path (input_file : String) : String :=
  pyStem input_file ++ ".optimizing" ++ pySuffix input_file

/-- `VideoOptimizer._cleanup_existing_optimizing_file`: unlink a stale
    InProgress artifact when present. -/
def cleanup_existing_optimizing_file (fs : FileSystem) (output_file : String) :
    FileSystem :=
  if output_file ∈ fs then fs.filter (fun n => decide (n ≠ output_file)) else fs

/-- The state `VideoOptimizer.__init__` hands to the fresh encode
    attempt: the InProgress output path is derived and any stale file
    of that name is deleted first. -/
def video_optimizer_init (fs : FileSystem) (input_file : String) :
    FileSystem × String :=
  let output_file := create_optimizing_output_path input_file
  (cleanup_existing_optimizing_file fs output_file, output_file)

/- ------------------------------------------------------------------ -/
/- commands/purge.py                                                  -/
/- ------------------------------------------------------------------ -/

def OPTIMIZED_FILENAME_MARKER : String := "optimized"

def OPTIMIZING_FILENAME_MARKER : String := ".optimizing."

/-- `PurgeDirectory._find_original_files_to_purge`: video files whose
    name is free of the plain `"optimized"` substring and that have a
    Done pair.  (The source walks the tree extension by extension; only
    the resulting set matters here.) -/
def find_original_files_to_purge (fs : FileSystem) : List String :=
  (fs.filter isVideoFile).filter
    (fun file =>
      !(strContains file OPTIMIZED_FILENAME_MARKER) &&
        (has_optimized_version fs file).isSome)

/-- `PurgeDirectory._has_unfinished_video`: first video file carrying
    the InProgress marker `".optimizing."`. -/
def has_unfinished_video (fs : FileSystem) : Option String :=
  (find_all_video_files fs false false).find?
    (fun video => strContains video OPTIMIZING_FILENAME_MARKER)

inductive PurgeOutcome where
  | abortedUnfinished (unfinished : String)
  | noCandidates
  | cancelled
  | purged (deleted : List String)
deriving DecidableEq

/-- `PurgeDirectory.execute`: the unfinished-video gate first, then the
    empty-candidate informational no-op, then confirmation and the
    deletion loop.  `user_confirms` is the interactive answer. -/
def purge_execute (fs : FileSystem) (skip_confirmation user_confirms : Bool) :
    PurgeOutcome :=
  match has_unfinished_video fs with
  | some unfinished => .abortedUnfinished unfinished
  | none =>
    let original_files := find_original_files_to_purge fs
    if original_files = [] then .noCandidates
    else if skip_confirmation || user_confirms then .purged original_files
    else .cancelled

/-- The files a purge outcome deletes. -/
def purge_deleted : PurgeOutcome → List String
  | .purged deleted => deleted
  | _ => []

/- ------------------------------------------------------------------ -/
/- commands/untag.py                                                  -/
/- ------------------------------------------------------------------ -/

/-- `UntagDirectory._generate_untagged_name`: strip every
    `".optimized"` occurrence; `UntaggedVideoOverwriteError` (the
    `.error` case) when the stripped name already exists. -/
def generate_untagged_name (fs : FileSystem) (video : String) :
    Except String String :=
  let untagged_video := strReplace video ".optimized" ""
  if untagged_video ∈ fs then .error untagged_video else .ok untagged_video

/-- The preview table built by `_confirm_untag` before the prompt: the
    first collision raises out of the command (nothing catches it
    there). -/
def confirm_untag_scan (fs : FileSystem) : List String → Option String
  | [] => none
  | video :: rest =>
    match generate_untagged_name fs video with
    | .error collision => some collision
    | .ok _ => confirm_untag_scan fs rest

/-- The rename loop of `_perform_untag_operation`: a per-file collision
    is caught and skipped, the loop continues; a successful rename
    replaces the old name by the new one in the snapshot. -/
def perform_untag_operation (fs : FileSystem) :
    List String → List (String × String) × FileSystem
  | [] => ([], fs)
  | video :: rest =>
    match generate_untagged_name fs video with
    | .error _ => perform_untag_operation fs rest
    | .ok new_name =>
      let fs2 := new_name :: fs.filter (fun n => decide (n ≠ video))
      let r := perform_untag_operation fs2 rest
      ((video, new_name) :: r.1, r.2)

inductive UntagOutcome where
  | noVideosError
  | collisionAbort (existing : String)
  | cancelled
  | completed (renamed : List (String × String)) (finalFs : FileSystem)
deriving DecidableEq

/-- `UntagDirectory.__init__` followed by `execute`: hard error on an
    empty Done set, then the preview scan (whose collision error aborts
    the whole command), then the confirmation gate, then the rename
    loop. -/
def untag_run (fs : FileSystem) (user_confirms : Bool) : UntagOutcome :=
  let videos := find_all_video_files fs false true
  if videos = [] then .noVideosError
  else
    match confirm_untag_scan fs videos with
    | some collision => .collisionAbort collision
    | none =>
      if user_confirms then
        let r := perform_untag_operation fs videos
        .completed r.1 r.2
      else .cancelled

/-- The files an untag outcome renamed. -/
def untag_renamed : UntagOutcome → List (String × String)
  | .completed renamed _ => renamed
  | _ => []

/- ------------------------------------------------------------------ -/
/- commands/healthcheck.py                                            -/
/- ------------------------------------------------------------------ -/

def MINIMUM_SAMPLE_SIZE : Nat := 1

/-- `HealthChecker._find_video_pairs`: originals with a Done pair;
    the empty set is the fail-fast `NoPairsFound` error. -/
def find_video_pairs (fs : FileSystem) : Except String (List (String × String)) :=
  let original_files := find_all_video_files fs true false
  let pairs := original_files.filterMap
    (fun original => (has_optimized_version fs original).map (fun opt => (original, opt)))
  if pairs = [] then .error "NoPairsFound" else .ok pairs

/-- `random.choices(population, k=k)`: `k` draws with replacement, the
    randomness supplied by the index oracle `pick` (reduced mod the
    population size, so every draw hits the population). -/
def random_choices (population : List (String × String)) (k : Nat)
    (pick : Nat → Nat) : List (String × String) :=
  (List.range k).map (fun i => population.getD (pick i % population.length) ("", ""))

/-- The sample-size arithmetic of `_get_sample`:
    `max(MINIMUM_SAMPLE_SIZE, math.floor(n * ratio))`, the ratio
    modelled as an exact rational. -/
def sample_size (n : Nat) (ratio : ℚ) : Nat :=
  max MINIMUM_SAMPLE_SIZE (⌊(n : ℚ) * ratio⌋).toNat

/-- `HealthChecker._get_sample`. -/
def get_sample (fs : FileSystem) (process_all : Bool) (ratio : ℚ)
    (pick : Nat → Nat) : Except String (List (String × String)) :=
  match find_video_pairs fs with
  | .error e => .error e
  | .ok video_pairs =>
    if process_all then .ok video_pairs
    else .ok (random_choices video_pairs (sample_size video_pairs.length ratio) pick)

/- ------------------------------------------------------------------ -/
/- cli.py                                                             -/
/- ------------------------------------------------------------------ -/

def CRF_MIN : Nat := 0

def CRF_MAX : Nat := 51

/-- Python `str.isdigit` restricted to decimal digits. -/
def isDigitStr (s : String) : Bool :=
  !(s.data.isEmpty) && s.data.all Char.isDigit

/-- Decimal value of a digit string, `int(value)`. -/
def strToNat (s : String) : Nat :=
  s.data.foldl (fun acc c => acc * 10 + (c.toNat - Char.toNat '0')) 0

inductive CrfError where
  | typeError (msg : String)
  | argumentTypeError (msg : String)
deriving DecidableEq

/-- `cli.valid_crf_range`: the argparse `type` callable for `--crf`. -/
def valid_crf_range (value : String) : Except CrfError Nat :=
  if !(isDigitStr value) then
    .error (.typeError (value ++ " must be a str which is a digit."))
  else
    let int_value := strToNat value
    if CRF_MIN ≤ int_value ∧ int_value ≤ CRF_MAX then .ok int_value
    else .error (.argumentTypeError "CRF must be between 0 and 51")

/-- The optimize command pipeline reduced to its data flow: argparse
    runs `valid_crf_range` while parsing, and only on success does the
    command construct `OptimizeDirectory`, which scans the directory. -/
def optimize_cli (crf_arg : String) (force_encode : Bool)
    (codecOf : String → String) (fs : FileSystem) :
    Except CrfError (List String) :=
  match valid_crf_range crf_arg with
  | .error e => .error e
  | .ok _ => .ok (find_video_files force_encode codecOf fs)

/- ------------------------------------------------------------------ -/
/- Helper lemmas                                                      -/
/- ------------------------------------------------------------------ -/

theorem mem_sortNames {a : String} {l : List String} : a ∈ sortNames l ↔ a ∈ l :=
  (List.perm_insertionSort nameLe l).mem_iff

theorem nodup_sortNames {l : List String} (h : l.Nodup) : (sortNames l).Nodup :=
  (List.perm_insertionSort nameLe l).nodup_iff.mpr h

theorem mem_find_all_video_files {fs : FileSystem} {oo po : Bool} {v : String} :
    v ∈ find_all_video_files fs oo po ↔
      (v ∈ fs ∧ isVideoFile v = true) ∧
        (oo = true → strContains v ".optimized" = false) ∧
        (po = true → strContains v ".optimized" = true) := by
  unfold find_all_video_files
  cases oo <;> cases po <;>
    simp [mem_sortNames, List.mem_filter, and_assoc]

/- ------------------------------------------------------------------ -/
/- Claims                                                             -/
/- ------------------------------------------------------------------ -/

/-- C7: for every snapshot and every file with stem `S` and extension
    `E`, the pairing query `has_optimized_version` returns exactly the
    path named `S ++ ".optimized" ++ E` when that file exists in the
    snapshot and `none` when it is absent; it is a pure function of the
    current snapshot (recomputed per query) and consults nothing but
    the derived name's existence. -/
theorem claim_C7 (fs : FileSystem) (file_path : String) :
    has_optimized_version fs file_path =
      (if pyStem file_path ++ ".optimized" ++ pySuffix file_path ∈ fs then
        some (pyStem file_path ++ ".optimized" ++ pySuffix file_path)
      else none) := by
  unfold has_optimized_version withStem
  rfl

/-- C8: `VideoOptimizer.__init__` derives the InProgress output path
    `stem ++ ".optimizing" ++ ext` for the file about to be encoded and
    deletes a stale artifact of that name before the encode starts: the
    snapshot handed to the fresh attempt never contains the InProgress
    path (so a prior partial output is never resumed), and no other
    file is touched. -/
theorem claim_C8 (fs : FileSystem) (input_file : String) :
    (video_optimizer_init fs input_file).2 =
        pyStem input_file ++ ".optimizing" ++ pySuffix input_file ∧
      (video_optimizer_init fs input_file).2 ∉ (video_optimizer_init fs input_file).1 ∧
      ∀ n, n ∈ (video_optimizer_init fs input_file).1 ↔
        n ∈ fs ∧ n ≠ (video_optimizer_init fs input_file).2 := by
  unfold video_optimizer_init cleanup_existing_optimizing_file
    create_optimizing_output_path
  by_cases h : pyStem input_file ++ ".optimizing" ++ pySuffix input_file ∈ fs
  · refine ⟨rfl, ?_, ?_⟩
    · simp [h, List.mem_filter]
    · intro n
      simp [h, List.mem_filter, and_comm]
  · refine ⟨rfl, ?_, ?_⟩
    · simp [h]
    · intro n
      simp only [if_neg h]
      constructor
      · intro hn
        refine ⟨hn, ?_⟩
        rintro rfl
        exact h hn
      · exact fun hn => hn.1

/-- C1: whenever the tree holds at least one video file whose name
    carries the InProgress marker `".optimizing."`, `purge` aborts with
    the unfinished-file remediation outcome and deletes zero files, no
    matter how many Original-with-Done-pair candidates exist and
    regardless of the confirmation flags. -/
theorem claim_C1 (fs : FileSystem) (skip_confirmation user_confirms : Bool)
    (v : String) (hv : v ∈ fs) (hvid : isVideoFile v = true)
    (hmark : strContains v OPTIMIZING_FILENAME_MARKER = true) :
    (∃ u, purge_execute fs skip_confirmation user_confirms =
        PurgeOutcome.abortedUnfinished u) ∧
      purge_deleted (purge_execute fs skip_confirmation user_confirms) = [] := by
  have hmem : v ∈ find_all_video_files fs false false :=
    mem_find_all_video_files.mpr ⟨⟨hv, hvid⟩, by simp, by simp⟩
  have hsome : (has_unfinished_video fs).isSome = true :=
    List.find?_isSome.mpr ⟨v, hmem, hmark⟩
  unfold purge_execute
  cases hfind : has_unfinished_video fs with
  | none => rw [hfind] at hsome; simp at hsome
  | some u => exact ⟨⟨u, rfl⟩, rfl⟩

/-- Witness for C1: a tree with a candidate (`B.mp4` has a Done pair)
    and the stale `X.optimizing.mp4` still aborts with zero deletions. -/
theorem claim_C1_witness :
    (∃ u, purge_execute ["B.mp4", "B.optimized.mp4", "X.optimizing.mp4"] false true =
        PurgeOutcome.abortedUnfinished u) ∧
      purge_deleted
        (purge_execute ["B.mp4", "B.optimized.mp4", "X.optimizing.mp4"] false true) = [] ∧
      find_original_files_to_purge ["B.mp4", "B.optimized.mp4", "X.optimizing.mp4"] =
        ["B.mp4"] := by
  have h := claim_C1 ["B.mp4", "B.optimized.mp4", "X.optimizing.mp4"] false true
    "X.optimizing.mp4" (by decide) (by decide) (by decide)
  exact ⟨h.1, h.2, by decide⟩

/-- C6: the two destructive commands treat an empty candidate set
    asymmetrically.  `untag` with zero Done files is a hard error
    (`ValueError` from the constructor), while `purge` with zero
    Original-with-Done-pair candidates (once its global InProgress gate
    passes, which is checked first) is an informational no-op outcome. -/
theorem claim_C6 :
    (∀ fs user_confirms, find_all_video_files fs false true = [] →
        untag_run fs user_confirms = UntagOutcome.noVideosError) ∧
      ∀ fs skip_confirmation user_confirms, has_unfinished_video fs = none →
        find_original_files_to_purge fs = [] →
        purge_execute fs skip_confirmation user_confirms = PurgeOutcome.noCandidates := by
  constructor
  · intro fs user_confirms h
    unfold untag_run
    simp [h]
  · intro fs skip_confirmation user_confirms h1 h2
    unfold purge_execute
    rw [h1]
    simp [h2]

/-- Witness for C6: a directory holding only an unmarked original. -/
theorem claim_C6_witness :
    untag_run ["A.mp4"] true = UntagOutcome.noVideosError ∧
      purge_execute ["A.mp4"] false true = PurgeOutcome.noCandidates :=
  ⟨claim_C6.1 ["A.mp4"] true (by decide),
   claim_C6.2 ["A.mp4"] false true (by decide) (by decide)⟩

theorem process_videos_cons_failure (h : Bool) (t : Int) (rest : List FileOutcome) :
    process_videos h t (FileOutcome.failure :: rest) =
      ⟨(process_videos h t rest).total,
        FileOutcome.failure :: (process_videos h t rest).processed,
        (process_videos h t rest).halted⟩ := rfl

theorem process_videos_cons_success (h : Bool) (t : Int) (orig post : Nat)
    (rest : List FileOutcome) :
    process_videos h t (FileOutcome.success orig post :: rest) =
      if h = true ∧ (orig : Int) - (post : Int) < 0 then
        ⟨t, [FileOutcome.success orig post], true⟩
      else
        ⟨(process_videos h (t + ((orig : Int) - (post : Int))) rest).total,
          FileOutcome.success orig post ::
            (process_videos h (t + ((orig : Int) - (post : Int))) rest).processed,
          (process_videos h (t + ((orig : Int) - (post : Int))) rest).halted⟩ := rfl

theorem accumulated_files_true (a : Int) (p : List FileOutcome) :
    accumulated_files ⟨a, p, true⟩ = p.dropLast := rfl

theorem accumulated_files_false (a : Int) (p : List FileOutcome) :
    accumulated_files ⟨a, p, false⟩ = p := rfl

theorem process_videos_spec (h : Bool) (t : Int) (l : List FileOutcome) :
    ((process_videos h t l).halted = true → (process_videos h t l).processed ≠ []) ∧
      (process_videos h t l).total =
        t + sum_disk_space_changes (accumulated_files (process_videos h t l)) := by
  induction l generalizing t with
  | nil =>
    refine ⟨by simp [process_videos], ?_⟩
    simp [process_videos, accumulated_files, sum_disk_space_changes]
  | cons o rest ih =>
    cases o with
    | failure =>
      rcases ih t with ⟨ihne, ihtot⟩
      rw [process_videos_cons_failure]
      refine ⟨fun _ => by simp, ?_⟩
      cases hhal : (process_videos h t rest).halted with
      | false =>
        dsimp only
        rw [accumulated_files_false]
        simp only [accumulated_files, hhal] at ihtot
        rw [ihtot]
        simp [sum_disk_space_changes, file_disk_space_change]
      | true =>
        dsimp only
        rw [accumulated_files_true]
        simp only [accumulated_files, hhal] at ihtot
        obtain ⟨x, xs, hxs⟩ := List.exists_cons_of_ne_nil (ihne hhal)
        rw [hxs] at ihtot ⊢
        rw [List.dropLast_cons₂, ihtot]
        simp [sum_disk_space_changes, file_disk_space_change]
    | success orig post =>
      rw [process_videos_cons_success]
      by_cases hc : h = true ∧ (orig : Int) - (post : Int) < 0
      · rw [if_pos hc]
        refine ⟨fun _ => by simp, ?_⟩
        rw [accumulated_files_true]
        simp [sum_disk_space_changes]
      · rw [if_neg hc]
        rcases ih (t + ((orig : Int) - (post : Int))) with ⟨ihne, ihtot⟩
        refine ⟨fun _ => by simp, ?_⟩
        cases hhal : (process_videos h (t + ((orig : Int) - (post : Int))) rest).halted with
        | false =>
          dsimp only
          rw [accumulated_files_false]
          simp only [accumulated_files, hhal] at ihtot
          rw [ihtot]
          simp only [sum_disk_space_changes, file_disk_space_change]
          ring
        | true =>
          dsimp only
          rw [accumulated_files_true]
          simp only [accumulated_files, hhal] at ihtot
          obtain ⟨x, xs, hxs⟩ := List.exists_cons_of_ne_nil (ihne hhal)
          rw [hxs] at ihtot ⊢
          rw [List.dropLast_cons₂, ihtot]
          simp only [sum_disk_space_changes, file_disk_space_change]
          ring

/-- C2 counterexample: with `halt_on_increase` set and two encodes of
    sizes `100 → 50` and `100 → 150`, both files are processed (the
    second triggers the halt and its Done artifact is kept), but the
    reported total is `50`, not the claimed sum `50 + (-50) = 0` over
    every processed file: the early halt return skips the grown file's
    accumulation. -/
theorem claim_C2_cx :
    (process_videos true 0 [FileOutcome.success 100 50, FileOutcome.success 100 150]).processed =
        [FileOutcome.success 100 50, FileOutcome.success 100 150] ∧
      (process_videos true 0 [FileOutcome.success 100 50, FileOutcome.success 100 150]).total = 50 ∧
      sum_disk_space_changes
        [FileOutcome.success 100 50, FileOutcome.success 100 150] = 0 := by
  decide

/-- C2 (amended): the reported batch total `disk_space_change` equals
    the exact sum of `(original_size - optimized_size)` over the
    accumulated files — every file processed before a halt, the
    halt-triggering file itself excluded (its change is dropped by the
    early return), failed files contributing nothing. -/
theorem claim_C2 (halt_on_increase : Bool) (outcomes : List FileOutcome) :
    (process_videos halt_on_increase 0 outcomes).total =
      sum_disk_space_changes
        (accumulated_files (process_videos halt_on_increase 0 outcomes)) := by
  have h := (process_videos_spec halt_on_increase 0 outcomes).2
  simpa using h

theorem confirm_untag_scan_isSome {fs : FileSystem} {l : List String}
    (h : ∃ v ∈ l, strReplace v ".optimized" "" ∈ fs) :
    ∃ c, confirm_untag_scan fs l = some c := by
  induction l with
  | nil => simp at h
  | cons a rest ih =>
    unfold confirm_untag_scan generate_untagged_name
    by_cases ha : strReplace a ".optimized" "" ∈ fs
    · exact ⟨strReplace a ".optimized" "", by simp [ha]⟩
    · simp only [if_neg ha]
      rcases h with ⟨v, hv, hcol⟩
      rcases List.mem_cons.mp hv with rfl | hv2
      · exact absurd hcol ha
      · exact ih ⟨v, hv2, hcol⟩

/-- C3 counterexample: for a directory holding `A.optimized.mp4`
    alongside a pre-existing `A.mp4`, `untag` does not complete with a
    "0 of 1 renamed" summary: the collision error raised while building
    the preview table aborts the whole command (before the prompt),
    renaming nothing. -/
theorem claim_C3_cx :
    untag_run ["A.mp4", "A.optimized.mp4"] true = UntagOutcome.collisionAbort "A.mp4" ∧
      untag_renamed (untag_run ["A.mp4", "A.optimized.mp4"] true) = [] := by
  decide

/-- C3 (amended): when some Done file's marker-stripped name collides
    with a file already present at scan time, the collision error
    raised during the preview aborts the entire untag run with zero
    renames (the per-file skip of `_perform_untag_operation` only
    covers collisions that first arise inside the rename loop, after
    the preview passed). -/
theorem claim_C3 (fs : FileSystem) (user_confirms : Bool)
    (hcol : ∃ v ∈ find_all_video_files fs false true,
      strReplace v ".optimized" "" ∈ fs) :
    (∃ existing, untag_run fs user_confirms = UntagOutcome.collisionAbort existing) ∧
      untag_renamed (untag_run fs user_confirms) = [] := by
  rcases hcol with ⟨v, hv, hc⟩
  have hne : find_all_video_files fs false true ≠ [] := List.ne_nil_of_mem hv
  obtain ⟨c, hscan⟩ := confirm_untag_scan_isSome ⟨v, hv, hc⟩
  unfold untag_run
  simp only [if_neg hne, hscan]
  exact ⟨⟨c, rfl⟩, rfl⟩

/-- Witness for C3 (amended): the claim's own scenario. -/
theorem claim_C3_witness :
    (∃ existing, untag_run ["A.mp4", "A.optimized.mp4"] true =
        UntagOutcome.collisionAbort existing) ∧
      untag_renamed (untag_run ["A.mp4", "A.optimized.mp4"] true) = [] :=
  claim_C3 ["A.mp4", "A.optimized.mp4"] true (by decide)

/-- C4: a file found by the optimize scan lands in the eligible list
    iff its name is unmarked (neither marker substring occurs in it),
    it has no existing Done pair, and either the force flag is set or
    none of the HEVC/h.265 identifiers occurs in its probed,
    lowercased codec string. -/
theorem claim_C4 (force_encode : Bool) (codecOf : String → String) (fs : FileSystem)
    (v : String) (hv : v ∈ fs) (hvid : isVideoFile v = true) :
    v ∈ find_video_files force_encode codecOf fs ↔
      (strContains v "optimized" = false ∧ strContains v "optimizing" = false) ∧
        has_optimized_version fs v = none ∧
        (force_encode = true ∨
          HEVC_CODEC_IDENTIFIERS.any
            (fun c => strContains (strToLower (codecOf v)) c) = false) := by
  unfold find_video_files
  rw [mem_sortNames, List.mem_filter, List.mem_filter]
  unfold should_exclude_video is_hevc_video
  simp only [EXCLUDED_FILENAME_PARTS, List.any_cons, List.any_nil, Bool.or_false]
  cases hopt : has_optimized_version fs v <;> cases force_encode <;>
    cases hc1 : strContains v "optimized" <;> cases hc2 : strContains v "optimizing" <;>
      cases hhevc : HEVC_CODEC_IDENTIFIERS.any
        (fun c => strContains (strToLower (codecOf v)) c) <;>
        simp_all

/-- Witness for C4: a lone original `A.mp4` with a non-HEVC codec. -/
theorem claim_C4_witness :
    "A.mp4" ∈ find_video_files false (fun _ => "h264") ["A.mp4"] ↔
      (strContains "A.mp4" "optimized" = false ∧ strContains "A.mp4" "optimizing" = false) ∧
        has_optimized_version ["A.mp4"] "A.mp4" = none ∧
        (false = true ∨
          HEVC_CODEC_IDENTIFIERS.any
            (fun c => strContains (strToLower "h264") c) = false) :=
  claim_C4 false (fun _ => "h264") ["A.mp4"] "A.mp4" (by decide) (by decide)

/-- C10: marker detection on the optimize scan is plain substring
    containment, not a dot-delimited token test: any found video file
    whose name merely contains `"optimized"` or `"optimizing"` is
    excluded from the eligible list, while the originals-only scan used
    for health-check pairing tests only the dotted `".optimized"`, so a
    file like `notoptimized.mp4` (no dotted marker) still counts as an
    original there. -/
theorem claim_C10 (force_encode : Bool) (codecOf : String → String) (fs : FileSystem)
    (v : String) (hv : v ∈ fs) (hvid : isVideoFile v = true)
    (hmark : strContains v "optimized" = true ∨ strContains v "optimizing" = true) :
    v ∉ find_video_files force_encode codecOf fs ∧
      (strContains v ".optimized" = false → v ∈ find_all_video_files fs true false) := by
  constructor
  · intro hmem
    unfold find_video_files at hmem
    rw [mem_sortNames, List.mem_filter] at hmem
    have hex : should_exclude_video force_encode codecOf fs v = true := by
      unfold should_exclude_video
      rcases hmark with h1 | h1 <;> simp [EXCLUDED_FILENAME_PARTS, h1]
    rw [hex] at hmem
    simp at hmem
  · intro hdot
    exact mem_find_all_video_files.mpr ⟨⟨hv, hvid⟩, fun _ => hdot, by simp⟩

/-- Witness for C10: `notoptimized.mp4` is kept out of the eligible
    list yet classified an original by the dotted-marker scan. -/
theorem claim_C10_witness :
    "notoptimized.mp4" ∉ find_video_files false (fun _ => "h264") ["notoptimized.mp4"] ∧
      "notoptimized.mp4" ∈ find_all_video_files ["notoptimized.mp4"] true false := by
  have h := claim_C10 false (fun _ => "h264") ["notoptimized.mp4"] "notoptimized.mp4"
    (by decide) (by decide) (Or.inl (by decide))
  exact ⟨h.1, h.2 (by decide)⟩

/-- C9: `valid_crf_range` accepts exactly the digit strings whose value
    lies in the inclusive range `CRF_MIN = 0 .. CRF_MAX = 51` (a
    non-digit string, e.g. a negative number, is a type error); any
    rejection happens while arguments are parsed, before the directory
    is consulted: on a parse error the optimize pipeline's outcome is
    independent of the filesystem. -/
theorem claim_C9 (value : String) (force_encode : Bool) (codecOf : String → String)
    (fs1 fs2 : FileSystem) :
    (isDigitStr value = true →
        (strToNat value ≤ CRF_MAX ↔
          valid_crf_range value = Except.ok (strToNat value))) ∧
      (isDigitStr value = false →
        ∃ m, valid_crf_range value = Except.error (CrfError.typeError m)) ∧
      ((∃ e, valid_crf_range value = Except.error e) →
        optimize_cli value force_encode codecOf fs1 =
          optimize_cli value force_encode codecOf fs2) := by
  refine ⟨?_, ?_, ?_⟩
  · intro hd
    unfold valid_crf_range
    rw [hd]
    simp only [Bool.not_true, CRF_MIN, CRF_MAX, Nat.zero_le, true_and,
      Bool.false_eq_true, if_false]
    by_cases h51 : strToNat value ≤ 51 <;> simp [h51]
  · intro hd
    refine ⟨value ++ " must be a str which is a digit.", ?_⟩
    unfold valid_crf_range
    rw [hd]
    rfl
  · rintro ⟨e, he⟩
    unfold optimize_cli
    rw [he]

/-- Witness for C9: `--crf 28` parses to `28`, while `--crf 99` fails
    parsing with the same error whatever the directory holds. -/
theorem claim_C9_witness :
    valid_crf_range "28" = Except.ok (strToNat "28") ∧
      optimize_cli "99" false (fun _ => "h264") ["A.mp4"] =
        optimize_cli "99" false (fun _ => "h264") [] :=
  ⟨((claim_C9 "28" false (fun _ => "h264") [] []).1 (by decide)).mp (by decide),
    (claim_C9 "99" false (fun _ => "h264") ["A.mp4"] []).2.2
      ⟨CrfError.argumentTypeError "CRF must be between 0 and 51", by decide⟩⟩

theorem find_video_pairs_ok {fs : FileSystem} {pairs : List (String × String)}
    (hp : find_video_pairs fs = .ok pairs) :
    pairs = (find_all_video_files fs true false).filterMap
        (fun original => (has_optimized_version fs original).map (fun opt => (original, opt))) ∧
      pairs ≠ [] := by
  simp only [find_video_pairs] at hp
  split at hp
  · exact Except.noConfusion hp
  · rename_i hne
    cases hp
    exact ⟨rfl, hne⟩

theorem nodup_video_pairs {fs : FileSystem} (hnd : fs.Nodup) :
    ((find_all_video_files fs true false).filterMap
      (fun original =>
        (has_optimized_version fs original).map (fun opt => (original, opt)))).Nodup := by
  have h1 : (find_all_video_files fs true false).Nodup := by
    have h2 : (sortNames (fs.filter isVideoFile)).Nodup :=
      nodup_sortNames (hnd.filter _)
    exact h2.filter _
  refine h1.filterMap ?_
  intro a a2 b hb hb2
  have e1 : b.1 = a := by
    rcases Option.map_eq_some'.mp (Option.mem_def.mp hb) with ⟨x, _, hx⟩
    rw [← hx]
  have e2 : b.1 = a2 := by
    rcases Option.map_eq_some'.mp (Option.mem_def.mp hb2) with ⟨x, _, hx⟩
    rw [← hx]
  exact e1.symm.trans e2

theorem getD_mem {l : List (String × String)} {n : Nat} (h : n < l.length)
    (d : String × String) : l.getD n d ∈ l := by
  induction l generalizing n with
  | nil => simp at h
  | cons a t ih =>
    cases n with
    | zero =>
      have he : (a :: t).getD 0 d = a := rfl
      rw [he]
      exact List.mem_cons_self a t
    | succ m =>
      have he : (a :: t).getD (m + 1) d = t.getD m d := rfl
      rw [he]
      exact List.mem_cons_of_mem a (ih (Nat.lt_of_succ_lt_succ h))

/-- C5: with the all flag, the health check analyzes exactly the
    discovered pairs, once each, without duplicates (given distinct
    file names); otherwise the sample has size exactly
    `max(1, floor(n * ratio))`, every sampled element is one of the
    pairs, and the draw is with replacement: some sequence of random
    draws yields a sample with duplicate pairs whenever the sample size
    admits it. -/
theorem claim_C5 (fs : FileSystem) (ratio : ℚ) (pick : Nat → Nat) (hnd : fs.Nodup)
    (pairs : List (String × String)) (hp : find_video_pairs fs = .ok pairs) :
    (get_sample fs true ratio pick = .ok pairs ∧ pairs.Nodup) ∧
      (∃ sample, get_sample fs false ratio pick = .ok sample ∧
        sample.length = sample_size pairs.length ratio ∧ ∀ x ∈ sample, x ∈ pairs) ∧
      (2 ≤ sample_size pairs.length ratio →
        ∃ pick2 sample, get_sample fs false ratio pick2 = .ok sample ∧ ¬ sample.Nodup) := by
  obtain ⟨hpe, hne⟩ := find_video_pairs_ok hp
  have hnodup : pairs.Nodup := by
    rw [hpe]
    exact nodup_video_pairs hnd
  have hlen : 0 < pairs.length := List.length_pos.mpr hne
  refine ⟨⟨?_, hnodup⟩, ?_, ?_⟩
  · unfold get_sample
    rw [hp]
    rfl
  · refine ⟨random_choices pairs (sample_size pairs.length ratio) pick, ?_, ?_, ?_⟩
    · unfold get_sample
      rw [hp]
      rfl
    · unfold random_choices
      rw [List.length_map, List.length_range]
    · intro x hx
      unfold random_choices at hx
      rcases List.mem_map.mp hx with ⟨i, _, hix⟩
      rw [← hix]
      exact getD_mem (Nat.mod_lt _ hlen) _
  · intro h2
    refine ⟨fun _ => 0,
      random_choices pairs (sample_size pairs.length ratio) (fun _ => 0), ?_, ?_⟩
    · unfold get_sample
      rw [hp]
      rfl
    · unfold random_choices
      dsimp only
      rw [List.map_const', List.length_range, List.nodup_replicate]
      omega

/-- Witness for C5: four files forming two pairs, analyzed with the all
    flag. -/
theorem claim_C5_witness :
    get_sample ["A.mp4", "A.optimized.mp4", "B.mp4", "B.optimized.mp4"] true 1 (fun _ => 0) =
        .ok [("A.mp4", "A.optimized.mp4"), ("B.mp4", "B.optimized.mp4")] ∧
      ([("A.mp4", "A.optimized.mp4"), ("B.mp4", "B.optimized.mp4")] :
        List (String × String)).Nodup :=
  (claim_C5 ["A.mp4", "A.optimized.mp4", "B.mp4", "B.optimized.mp4"] 1 (fun _ => 0)
    (by decide) [("A.mp4", "A.optimized.mp4"), ("B.mp4", "B.optimized.mp4")] (by decide)).1

end NanoEncoder
